import Mathlib

/-!
Verification development for the Threadify background task runner.

The runner's code is not present in the sources (only `examples.py`, a
caller, is), so every definition of the runner itself is modelled from the
specification: the lifecycle state machine, the control signals, the storage
context with its copy semantics, and the controller operations. Blocking is
modelled as stuttering of the execution loop's small-step function, and the
interleaving of controller and loop is modelled by event traces.
-/

/-- Modelled from the spec: a heterogeneous storage value. `queueHandle`
stands for a handle to an external synchronization primitive (e.g. a
`queue.Queue`), the spec's example of a value that cannot be copied. -/
inductive Val where
  | nat (n : Nat)
  | str (s : String)
  | queueHandle (id : Nat)
  deriving DecidableEq

/-- Modelled from the spec: whether a value can be deep-copied. Handles to
external synchronization primitives cannot. -/
def Val.copyable : Val → Bool
  | .queueHandle _ => false
  | _ => true

/-- Modelled from the spec: the Storage Context, an ordered string-keyed
mapping with heterogeneous values. -/
abbrev Store := List (String × Val)

/-- Lookup of a key in the Storage Context. -/
def storeGet (s : Store) (k : String) : Option Val :=
  match s with
  | [] => none
  | (k2, v) :: rest => if k2 = k then some v else storeGet rest k

/-- Insertion-order-preserving update of the Storage Context: an existing
key is updated in place, a new key is appended at the end. -/
def storeSet (s : Store) (k : String) (v : Val) : Store :=
  match s with
  | [] => [(k, v)]
  | (k2, v2) :: rest => if k2 = k then (k, v) :: rest else (k2, v2) :: storeSet rest k v

/-- Whether every value of the Storage Context can be deep-copied. -/
def storeCopyable (s : Store) : Bool :=
  s.all fun kv => kv.2.copyable

/-- Modelled from the spec: a Task outcome, the tagged result of one Task
invocation. The Task mutates the Storage Context and either continues
(`cont`, the boolean `true`), self-terminates (`stop`, the boolean `false`)
or raises a failure (`failed`). -/
inductive TaskOutcome where
  | cont (s : Store)
  | stop (s : Store)
  | failed (err : String) (s : Store)
  deriving DecidableEq

/-- A Task: a function from the Storage Context to an outcome. -/
def TaskFn := Store → TaskOutcome

/-- Modelled from the spec: the four Control Signals. `pauseRequested` and
`killRequested` are set by the Controller; `paused` and `terminated` are
set by the Execution Loop. -/
structure Signals where
  pauseRequested : Bool
  killRequested : Bool
  paused : Bool
  terminated : Bool
  deriving DecidableEq

/-- Modelled from the spec: the Lifecycle/loop states. `Invoking` is the
micro-state of `Running` in which a Task invocation is in flight, so that
"at most one invocation in flight" after a request is expressible; the
spec's `Running` covers `Running` and `Invoking`. -/
inductive Phase where
  | NotStarted
  | Running
  | PausedWaiting
  | Invoking
  | Stopping
  | Dead
  deriving DecidableEq

/-- Modelled from the spec: the Runner's state as seen across both
threads: lifecycle phase, control signals, storage context, the recorded
task failures, the failure policy, and the number of completed Task
invocations. -/
structure Runner where
  phase : Phase
  signals : Signals
  storage : Store
  failures : List String
  ignoreTaskFailures : Bool
  cycles : Nat
  deriving DecidableEq

/-- Construction options of the Lifecycle Controller. -/
structure Options where
  autoStart : Bool
  daemon : Bool
  copyStorage : Bool
  ignoreTaskFailures : Bool
  deriving DecidableEq

/-- The synchronous construction errors. -/
inductive ConstructError where
  | configurationError
  | alreadyStartedError
  deriving DecidableEq

/-- Modelled from the spec: deep copy of the Storage Context. On immutable
values the copy is the identity; it fails on values that cannot be copied.
The aliasing consequence of copying is modelled separately by `World`. -/
def deepCopy (s : Store) : Except ConstructError Store :=
  if storeCopyable s then .ok s else .error .configurationError

/-- Modelled from the spec: `construct(task, initialStorage, options)`.
Fails with `ConfigurationError` when `copyStorage` is requested but the
storage holds an uncopyable value; otherwise yields a fresh Runner, already
`Running` when `autoStart` is set. -/
def construct (init : Store) (opts : Options) : Except ConstructError Runner :=
  match (if opts.copyStorage then deepCopy init else .ok init) with
  | .error e => .error e
  | .ok st =>
      .ok { phase := if opts.autoStart then .Running else .NotStarted
            signals := ⟨false, false, false, false⟩
            storage := st
            failures := []
            ignoreTaskFailures := opts.ignoreTaskFailures
            cycles := 0 }

/-- Modelled from the spec: the built-in default Task (the source's
dot-printing task): its console output is outside the model, it leaves the
storage unchanged and always returns `true`. -/
def defaultTask : TaskFn := fun s => .cont s

/-- Modelled from the spec and the examples: the `Threadify` constructor
with its optional arguments: a missing task argument defaults to the
built-in default Task, a missing storage argument to the empty mapping. -/
def Threadify (task : Option TaskFn) (storage : Option Store) (opts : Options) :
    Except ConstructError (TaskFn × Runner) :=
  (construct (storage.getD []) opts).map fun r => (task.getD defaultTask, r)

/-- Modelled from the spec: `kill` sets `killRequested`. The blocking of
`kill(waitUntilDead=true)` is modelled by running loop steps until
`terminated` holds. -/
def kill (r : Runner) : Runner :=
  { r with signals := { r.signals with killRequested := true } }

/-- Modelled from the spec: `pause` sets `pauseRequested`. -/
def pause (r : Runner) : Runner :=
  { r with signals := { r.signals with pauseRequested := true } }

/-- Modelled from the spec: `unpause` clears `pauseRequested` and `paused`. -/
def unpause (r : Runner) : Runner :=
  { r with signals := { r.signals with pauseRequested := false, paused := false } }

/-- Modelled from the spec: `start` spawns the loop from `NotStarted` and
fails with `AlreadyStartedError` when called again. -/
def startOp (r : Runner) : Except ConstructError Runner :=
  if r.phase = .NotStarted then .ok { r with phase := .Running }
  else .error .alreadyStartedError

/-- Modelled from the spec: `isAlive`, a non-blocking observer: the loop is
alive from `start` until it reaches `Dead`. -/
def isAlive (r : Runner) : Bool :=
  match r.phase with
  | .NotStarted => false
  | .Dead => false
  | _ => true

/-- Modelled from the spec: `isPaused`, a non-blocking observer of the
`paused` signal. -/
def isPaused (r : Runner) : Bool :=
  r.signals.paused

/-- Modelled from the spec: one micro-step of the Execution Loop.
`Running`/`PausedWaiting` perform the between-invocations check: kill wins
over pause, pause blocks (modelled as stuttering in `PausedWaiting`), and
otherwise an invocation starts (`Invoking`). `Invoking` completes the
in-flight invocation and applies the outcome: continue, self-terminate via
`Stopping`, or the `ignoreTaskFailures` policy. `Stopping` transitions to
`Dead` and sets `terminated`; `Dead` is terminal and `NotStarted` has no
loop to run. -/
def loopStep (task : TaskFn) (r : Runner) : Runner :=
  match r.phase with
  | .NotStarted => r
  | .Dead => r
  | .Stopping =>
      { r with phase := .Dead, signals := { r.signals with terminated := true } }
  | .Invoking =>
      match task r.storage with
      | .cont s =>
          { r with phase := .Running, storage := s, cycles := r.cycles + 1 }
      | .stop s =>
          { r with phase := .Stopping, storage := s, cycles := r.cycles + 1 }
      | .failed e s =>
          if r.ignoreTaskFailures then
            { r with phase := .Running, storage := s,
                     failures := r.failures ++ [e], cycles := r.cycles + 1 }
          else
            { r with phase := .Stopping, storage := s,
                     failures := r.failures ++ [e], cycles := r.cycles + 1 }
  | .Running | .PausedWaiting =>
      if r.signals.killRequested then
        { r with phase := .Stopping, signals := { r.signals with paused := false } }
      else if r.signals.pauseRequested then
        { r with phase := .PausedWaiting, signals := { r.signals with paused := true } }
      else
        { r with phase := .Invoking, signals := { r.signals with paused := false } }

/-- Iterated loop micro-steps. -/
def iterSteps (task : TaskFn) : Nat → Runner → Runner
  | 0, r => r
  | n + 1, r => iterSteps task n (loopStep task r)

/-- An interleaving event: a Controller request or one loop micro-step. -/
inductive Event where
  | ctrlStart
  | ctrlPause
  | ctrlUnpause
  | ctrlKill
  | loopTick
  deriving DecidableEq

/-- The effect of one event on the Runner's state; a failing `start` leaves
the state unchanged (the error is surfaced to the caller only). -/
def stepEvent (task : TaskFn) (r : Runner) : Event → Runner
  | .ctrlStart => match startOp r with | .ok r2 => r2 | .error _ => r
  | .ctrlPause => pause r
  | .ctrlUnpause => unpause r
  | .ctrlKill => kill r
  | .loopTick => loopStep task r

/-- Running a trace of interleaved events. -/
def runEvents (task : TaskFn) (r : Runner) : List Event → Runner
  | [] => r
  | e :: es => runEvents task (stepEvent task r e) es

/-- The Runner transitions into `Dead` at position `i` of the trace. -/
def diesAt (task : TaskFn) (r : Runner) (es : List Event) (i : Nat) : Prop :=
  (runEvents task r (es.take i)).phase ≠ Phase.Dead ∧
    (runEvents task r (es.take (i + 1))).phase = Phase.Dead

/-- Modelled from the spec: the aliasing state after construction. With
`copyStorage=false` the caller and the Runner share one mapping object
(`shared = true`); with `copyStorage=true` they hold independent copies. -/
structure World where
  caller : Store
  runner : Store
  shared : Bool
  deriving DecidableEq

/-- Modelled from the spec: Storage-Context handling at construction:
deep-copy (fails on uncopyable values) or share the caller's mapping. -/
def constructWorld (init : Store) (copyStorage : Bool) : Except ConstructError World :=
  if copyStorage then
    match deepCopy init with
    | .ok c => .ok { caller := init, runner := c, shared := false }
    | .error e => .error e
  else
    .ok { caller := init, runner := init, shared := true }

/-- A mutation the caller applies to its original mapping: when the mapping
is shared it is visible to the Runner, otherwise only to the caller. -/
def callerWrite (w : World) (k : String) (v : Val) : World :=
  { caller := storeSet w.caller k v
    runner := if w.shared then storeSet w.runner k v else w.runner
    shared := w.shared }

/-- A mutation a Task invocation applies to the Storage Context: when the
mapping is shared it is visible to the caller, otherwise only to the Runner. -/
def taskWrite (w : World) (k : String) (v : Val) : World :=
  { caller := if w.shared then storeSet w.caller k v else w.caller
    runner := storeSet w.runner k v
    shared := w.shared }

/-- A sequence of caller mutations. -/
def callerWrites (w : World) : List (String × Val) → World
  | [] => w
  | (k, v) :: ms => callerWrites (callerWrite w k v) ms

/-- A sequence of Task mutations. -/
def taskWrites (w : World) : List (String × Val) → World
  | [] => w
  | (k, v) :: ms => taskWrites (taskWrite w k v) ms

/-- The counter-incrementing Task of the concrete scenario: it adds 1 to
the value at key `count` each invocation and returns `true`. -/
def countTask : TaskFn := fun s =>
  match storeGet s "count" with
  | some (.nat n) => .cont (storeSet s "count" (.nat (n + 1)))
  | _ => .cont (storeSet s "count" (.nat 1))

/-- Modelled from the spec: the blocking return of `kill(waitUntilDead=true)`:
after setting the flag, the loop reaches `Dead` within at most four
micro-steps (at most one in-flight invocation, then check, `Stopping`,
`Dead`), so four steps always suffice. -/
def killWait (task : TaskFn) (r : Runner) : Runner :=
  loopStep task (loopStep task (loopStep task (loopStep task (kill r))))

/-- A concrete running Runner used to instantiate the general theorems. -/
def demoRunner : Runner :=
  { phase := .Running
    signals := ⟨false, false, false, false⟩
    storage := []
    failures := []
    ignoreTaskFailures := false
    cycles := 0 }

theorem iterSteps_succ (task : TaskFn) (n : Nat) (r : Runner) :
    iterSteps task (n + 1) r = iterSteps task n (loopStep task r) := rfl

theorem loopStep_dead (task : TaskFn) (r : Runner) (h : r.phase = .Dead) :
    loopStep task r = r := by
  rcases r with ⟨ph, sg, st, fl, ig, cy⟩
  simp only [Runner.phase] at h
  subst h
  rfl

theorem iterSteps_dead (task : TaskFn) (n : Nat) (r : Runner) (h : r.phase = .Dead) :
    iterSteps task n r = r := by
  induction n generalizing r with
  | zero => rfl
  | succ n ih => rw [iterSteps_succ, loopStep_dead task r h]; exact ih r h

theorem isAlive_dead (r : Runner) (h : r.phase = .Dead) : isAlive r = false := by
  simp [isAlive, h]

theorem isAlive_iterSteps_dead (task : TaskFn) (n : Nat) (r : Runner)
    (h : r.phase = .Dead) : isAlive (iterSteps task n r) = false := by
  rw [iterSteps_dead task n r h]
  exact isAlive_dead r h

/-- C1: `kill` sets `killRequested`; `kill(waitUntilDead=true)` returns only
once the Loop has set `terminated`, after which `isAlive()` is `false` and
stays `false`; calling `kill` again, or on an already-dead Runner, is a
no-op and never an error. -/
theorem C1_kill_terminates (task : TaskFn) (r : Runner) :
    (kill r).signals.killRequested = true
    ∧ kill (kill r) = kill r
    ∧ (r.phase = .Dead →
        (kill r).phase = .Dead ∧ isAlive (kill r) = false ∧
          loopStep task (kill r) = kill r)
    ∧ (isAlive r = true →
        (killWait task r).signals.terminated = true
        ∧ (killWait task r).phase = .Dead
        ∧ isAlive (killWait task r) = false
        ∧ ∀ n, isAlive (iterSteps task n (killWait task r)) = false) := by
  rcases r with ⟨ph, ⟨pr, kr, pa, te⟩, st, fl, ig, cy⟩
  refine ⟨rfl, rfl, ?_, ?_⟩
  · intro h
    simp only [Runner.phase] at h
    subst h
    exact ⟨rfl, rfl, rfl⟩
  · intro h
    cases ph with
    | NotStarted => simp [isAlive] at h
    | Dead => simp [isAlive] at h
    | Running =>
        exact ⟨rfl, rfl, rfl, fun n => isAlive_iterSteps_dead task n _ rfl⟩
    | PausedWaiting =>
        exact ⟨rfl, rfl, rfl, fun n => isAlive_iterSteps_dead task n _ rfl⟩
    | Stopping =>
        exact ⟨rfl, rfl, rfl, fun n => isAlive_iterSteps_dead task n _ rfl⟩
    | Invoking =>
        cases htask : task st with
        | cont s =>
            simp only [killWait, kill, loopStep, htask]
            exact ⟨by trivial, by trivial, by trivial,
              fun n => isAlive_iterSteps_dead task n _ (by trivial)⟩
        | stop s =>
            simp only [killWait, kill, loopStep, htask]
            exact ⟨by trivial, by trivial, by trivial,
              fun n => isAlive_iterSteps_dead task n _ (by trivial)⟩
        | failed e s =>
            cases ig with
            | false =>
                simp only [killWait, kill, loopStep, htask]
                exact ⟨by trivial, by trivial, by trivial,
                  fun n => isAlive_iterSteps_dead task n _ (by trivial)⟩
            | true =>
                simp only [killWait, kill, loopStep, htask]
                exact ⟨by trivial, by trivial, by trivial,
                  fun n => isAlive_iterSteps_dead task n _ (by trivial)⟩

/-- Witness for C1 at a concrete running Runner and the default task. -/
theorem C1_kill_terminates_witness :
    isAlive demoRunner = true ∧
      (killWait defaultTask demoRunner).signals.terminated = true := by
  refine ⟨by decide, ?_⟩
  exact ((C1_kill_terminates defaultTask demoRunner).2.2.2 (by decide)).1

theorem phase_iterSteps_dead (task : TaskFn) (n : Nat) (r : Runner)
    (h : r.phase = .Dead) : (iterSteps task n r).phase = .Dead := by
  rw [iterSteps_dead task n r h]
  exact h

/-- A concrete Task that self-terminates immediately. -/
def stopTask : TaskFn := fun s => .stop s

/-- C2: a Task invocation that returns `false` drives the Loop through
`Stopping` to `Dead` within three micro-steps of the check that precedes
it, sets `terminated`, and the loop exits permanently, all without any
kill request; the observable outcome (`Dead`, `terminated` set, not alive)
is the same as an external kill's. -/
theorem C2_self_termination (task : TaskFn) (r : Runner) (s : Store)
    (hph : r.phase = .Running)
    (hk : r.signals.killRequested = false)
    (hp : r.signals.pauseRequested = false)
    (ht : task r.storage = .stop s) :
    (loopStep task r).phase = .Invoking
    ∧ (loopStep task (loopStep task r)).phase = .Stopping
    ∧ (loopStep task (loopStep task (loopStep task r))).phase = .Dead
    ∧ (loopStep task (loopStep task (loopStep task r))).signals.terminated = true
    ∧ isAlive (loopStep task (loopStep task (loopStep task r))) = false
    ∧ (loopStep task (loopStep task (loopStep task r))).signals.killRequested = false
    ∧ ∀ n, (iterSteps task n (loopStep task (loopStep task (loopStep task r)))).phase
        = .Dead := by
  rcases r with ⟨ph, ⟨pr, kr, pa, te⟩, st, fl, ig, cy⟩
  simp only [Runner.phase, Runner.signals, Runner.storage, Signals.killRequested,
    Signals.pauseRequested] at hph hk hp ht
  subst hph
  subst hk
  subst hp
  refine ⟨?_, ?_, ?_, ?_, ?_, ?_, fun n => phase_iterSteps_dead task n _ ?_⟩ <;>
      (try simp [loopStep, ht]) <;> try trivial

/-- Witness for C2: the immediately-stopping task on a concrete Runner. -/
theorem C2_self_termination_witness :
    demoRunner.phase = .Running
    ∧ demoRunner.signals.killRequested = false
    ∧ demoRunner.signals.pauseRequested = false
    ∧ stopTask demoRunner.storage = .stop []
    ∧ (loopStep stopTask (loopStep stopTask (loopStep stopTask demoRunner))).phase
        = .Dead :=
  ⟨rfl, rfl, rfl, rfl,
    (C2_self_termination stopTask demoRunner [] rfl rfl rfl rfl).2.2.1⟩

theorem paused_stutter (task : TaskFn) (n : Nat) : ∀ (r : Runner),
    r.phase = .PausedWaiting → r.signals.pauseRequested = true →
    r.signals.killRequested = false →
    (iterSteps task n r).storage = r.storage
    ∧ (iterSteps task n r).cycles = r.cycles
    ∧ (iterSteps task n r).phase = .PausedWaiting
    ∧ (iterSteps task n r).signals.pauseRequested = true
    ∧ (iterSteps task n r).signals.killRequested = false := by
  induction n with
  | zero => exact fun r h1 h2 h3 => ⟨rfl, rfl, h1, h2, h3⟩
  | succ n ih =>
      intro r h1 h2 h3
      rw [iterSteps_succ]
      have hstep : loopStep task r
          = { r with phase := .PausedWaiting,
                     signals := { r.signals with paused := true } } := by
        rcases r with ⟨ph, ⟨pr, kr, pa, te⟩, st, fl, ig, cy⟩
        simp only [Runner.phase, Runner.signals, Signals.pauseRequested,
          Signals.killRequested] at h1 h2 h3
        subst h1
        subst h2
        subst h3
        rfl
      rw [hstep]
      obtain ⟨a, b, c, d, e⟩ := ih
        { r with phase := .PausedWaiting,
                 signals := { r.signals with paused := true } } rfl h2 h3
      exact ⟨a, b, c, d, e⟩

/-- A concrete paused Runner used to instantiate the pause theorems. -/
def pausedRunner : Runner :=
  { phase := .PausedWaiting
    signals := ⟨true, false, true, false⟩
    storage := [("k", .nat 1)]
    failures := []
    ignoreTaskFailures := false
    cycles := 2 }

/-- C3: once `pause(waitUntilPaused=true)` has returned (the Loop is in
`PausedWaiting` with `paused` set), no Task invocation occurs and the
Storage Context is unchanged, key by key, for as long as `pauseRequested`
stays set and no kill arrives; the blocked Loop is released either by
`unpause` (next check starts an invocation) or by a kill request (next
check enters the termination path); and from `Running`, a pause request is
observed by the next check, which sets `paused`. -/
theorem C3_pause_frame (task : TaskFn) (r : Runner)
    (hph : r.phase = .PausedWaiting)
    (hpr : r.signals.pauseRequested = true)
    (hk : r.signals.killRequested = false) :
    (∀ n, (iterSteps task n r).storage = r.storage
       ∧ (∀ k, storeGet (iterSteps task n r).storage k = storeGet r.storage k)
       ∧ (iterSteps task n r).cycles = r.cycles
       ∧ (iterSteps task n r).phase = .PausedWaiting)
    ∧ (loopStep task (unpause r)).phase = .Invoking
    ∧ (loopStep task (kill r)).phase = .Stopping
    ∧ (∀ r2 : Runner, r2.phase = .Running → r2.signals.killRequested = false →
        (loopStep task (pause r2)).signals.paused = true
        ∧ (loopStep task (pause r2)).phase = .PausedWaiting) := by
  refine ⟨?_, ?_, ?_, ?_⟩
  · intro n
    obtain ⟨a, b, c, d, e⟩ := paused_stutter task n r hph hpr hk
    exact ⟨a, fun k => by rw [a], b, c⟩
  · rcases r with ⟨ph, ⟨pr, kr, pa, te⟩, st, fl, ig, cy⟩
    simp only [Runner.phase, Runner.signals, Signals.pauseRequested,
      Signals.killRequested] at hph hpr hk
    subst hph
    subst hpr
    subst hk
    rfl
  · rcases r with ⟨ph, ⟨pr, kr, pa, te⟩, st, fl, ig, cy⟩
    simp only [Runner.phase] at hph
    subst hph
    rfl
  · intro r2 h1 h2
    rcases r2 with ⟨ph, ⟨pr, kr, pa, te⟩, st, fl, ig, cy⟩
    simp only [Runner.phase, Runner.signals, Signals.killRequested] at h1 h2
    subst h1
    subst h2
    exact ⟨rfl, rfl⟩

/-- Witness for C3 at a concrete paused Runner. -/
theorem C3_pause_frame_witness :
    pausedRunner.phase = .PausedWaiting
    ∧ pausedRunner.signals.pauseRequested = true
    ∧ pausedRunner.signals.killRequested = false
    ∧ (iterSteps defaultTask 3 pausedRunner).storage = pausedRunner.storage :=
  ⟨rfl, rfl, rfl, ((C3_pause_frame defaultTask pausedRunner rfl rfl rfl).1 3).1⟩

/-- A concrete Task that raises a failure immediately. -/
def failTask : TaskFn := fun s => .failed "boom" s

/-- C4: a Task invocation that raises a failure: with
`ignoreTaskFailures=true` the failure is recorded, the storage mutations it
made are retained (no rollback), and the Runner is back in `Running`, alive
for cycle k+1; with `ignoreTaskFailures=false` the Runner transitions
through `Stopping` to `Dead` at cycle k, sets `terminated`, and the
recorded failure remains observable rather than silently dropped. -/
theorem C4_failure_policy (task : TaskFn) (r : Runner) (e : String) (s : Store)
    (hph : r.phase = .Running)
    (hk : r.signals.killRequested = false)
    (hp : r.signals.pauseRequested = false)
    (ht : task r.storage = .failed e s) :
    (r.ignoreTaskFailures = true →
      (loopStep task (loopStep task r)).phase = .Running
      ∧ isAlive (loopStep task (loopStep task r)) = true
      ∧ (loopStep task (loopStep task r)).storage = s
      ∧ e ∈ (loopStep task (loopStep task r)).failures
      ∧ (loopStep task (loopStep task r)).cycles = r.cycles + 1)
    ∧ (r.ignoreTaskFailures = false →
      (loopStep task (loopStep task r)).phase = .Stopping
      ∧ (loopStep task (loopStep task (loopStep task r))).phase = .Dead
      ∧ (loopStep task (loopStep task (loopStep task r))).signals.terminated = true
      ∧ isAlive (loopStep task (loopStep task (loopStep task r))) = false
      ∧ e ∈ (loopStep task (loopStep task (loopStep task r))).failures
      ∧ (loopStep task (loopStep task (loopStep task r))).cycles = r.cycles + 1) := by
  rcases r with ⟨ph, ⟨pr, kr, pa, te⟩, st, fl, ig, cy⟩
  simp only [Runner.phase, Runner.signals, Runner.storage, Signals.killRequested,
    Signals.pauseRequested] at hph hk hp ht
  subst hph
  subst hk
  subst hp
  constructor
  · intro hig
    simp only [Runner.ignoreTaskFailures] at hig
    subst hig
    refine ⟨?_, ?_, ?_, ?_, ?_⟩ <;> simp [loopStep, ht, isAlive]
  · intro hig
    simp only [Runner.ignoreTaskFailures] at hig
    subst hig
    refine ⟨?_, ?_, ?_, ?_, ?_, ?_⟩ <;> simp [loopStep, ht, isAlive]

/-- Witness for C4: a failing task on a concrete Runner that does not
ignore failures. -/
theorem C4_failure_policy_witness :
    demoRunner.phase = .Running
    ∧ demoRunner.signals.killRequested = false
    ∧ demoRunner.signals.pauseRequested = false
    ∧ failTask demoRunner.storage = .failed "boom" []
    ∧ demoRunner.ignoreTaskFailures = false
    ∧ (loopStep failTask (loopStep failTask (loopStep failTask demoRunner))).phase
        = .Dead :=
  ⟨rfl, rfl, rfl, rfl, rfl,
    ((C4_failure_policy failTask demoRunner "boom" [] rfl rfl rfl rfl).2 rfl).2.1⟩

theorem callerWrites_shared_false (ms : List (String × Val)) : ∀ w : World,
    w.shared = false →
    (callerWrites w ms).runner = w.runner ∧ (callerWrites w ms).shared = false := by
  induction ms with
  | nil => exact fun w h => ⟨rfl, h⟩
  | cons m ms ih =>
      intro w h
      obtain ⟨k, v⟩ := m
      have h3 : (callerWrite w k v).runner = w.runner := by
        simp [callerWrite, h]
      obtain ⟨a, b⟩ := ih (callerWrite w k v) h
      exact ⟨a.trans h3, b⟩

theorem taskWrites_shared_false (ms : List (String × Val)) : ∀ w : World,
    w.shared = false →
    (taskWrites w ms).caller = w.caller ∧ (taskWrites w ms).shared = false := by
  induction ms with
  | nil => exact fun w h => ⟨rfl, h⟩
  | cons m ms ih =>
      intro w h
      obtain ⟨k, v⟩ := m
      have h3 : (taskWrite w k v).caller = w.caller := by
        simp [taskWrite, h]
      obtain ⟨a, b⟩ := ih (taskWrite w k v) h
      exact ⟨a.trans h3, b⟩

/-- C5: with `copyStorage=true` the Runner's mapping is an independent copy
of the caller's mapping taken at construction: any later sequence of caller
mutations leaves the Runner's mapping (hence every value a Task invocation
observes) unchanged, and any sequence of Task mutations leaves the caller's
original mapping unchanged. -/
theorem C5_copy_isolation (init : Store) (w : World) (ms mt : List (String × Val))
    (h : constructWorld init true = .ok w) :
    w.runner = init
    ∧ (callerWrites w ms).runner = w.runner
    ∧ (∀ k, storeGet (callerWrites w ms).runner k = storeGet w.runner k)
    ∧ (taskWrites w mt).caller = w.caller := by
  by_cases hc : storeCopyable init = true
  · simp [constructWorld, deepCopy, hc] at h
    subst h
    refine ⟨rfl, ?_, ?_, ?_⟩
    · exact (callerWrites_shared_false ms _ rfl).1
    · intro k
      rw [(callerWrites_shared_false ms _ rfl).1]
    · exact (taskWrites_shared_false mt _ rfl).1
  · simp [constructWorld, deepCopy, hc] at h

/-- Witness for C5 at a concrete copyable mapping and concrete mutations. -/
theorem C5_copy_isolation_witness :
    constructWorld [("a", Val.nat 0)] true
      = .ok { caller := [("a", Val.nat 0)], runner := [("a", Val.nat 0)], shared := false }
    ∧ (callerWrites
        { caller := [("a", Val.nat 0)], runner := [("a", Val.nat 0)], shared := false }
        [("a", Val.nat 9)]).runner
      = ({ caller := [("a", Val.nat 0)], runner := [("a", Val.nat 0)],
           shared := false } : World).runner :=
  ⟨rfl,
    (C5_copy_isolation [("a", Val.nat 0)] _ [("a", Val.nat 9)] [] rfl).2.1⟩

/-- C8: constructing with `copyStorage=true` over a storage holding an
uncopyable value (a handle to an external synchronization primitive) fails
synchronously with `ConfigurationError`, whatever the other options are;
the same storage is accepted whenever `copyStorage=false` is chosen
instead. -/
theorem C8_uncopyable_storage (init : Store) (opts : Options)
    (hc : opts.copyStorage = true)
    (h : ∃ kv ∈ init, kv.2.copyable = false) :
    construct init opts = .error .configurationError
    ∧ ∀ opts2 : Options, opts2.copyStorage = false →
        ∃ r, construct init opts2 = .ok r := by
  have hsc : ¬storeCopyable init = true := by
    obtain ⟨kv, hmem, hval⟩ := h
    simp only [storeCopyable, List.all_eq_true]
    intro hall
    exact absurd (hall kv hmem) (by simp [hval])
  constructor
  · simp [construct, deepCopy, hc, hsc]
  · intro opts2 h2
    refine ⟨{ phase := if opts2.autoStart then Phase.Running else Phase.NotStarted
              signals := ⟨false, false, false, false⟩
              storage := init
              failures := []
              ignoreTaskFailures := opts2.ignoreTaskFailures
              cycles := 0 }, ?_⟩
    simp [construct, h2]

/-- Witness for C8: a storage holding a queue handle. -/
theorem C8_uncopyable_storage_witness :
    ({ autoStart := true, daemon := true, copyStorage := true,
       ignoreTaskFailures := false } : Options).copyStorage = true
    ∧ (∃ kv ∈ ([("queue", Val.queueHandle 0)] : Store), kv.2.copyable = false)
    ∧ construct [("queue", Val.queueHandle 0)]
        { autoStart := true, daemon := true, copyStorage := true,
          ignoreTaskFailures := false }
      = .error .configurationError :=
  ⟨rfl, ⟨("queue", Val.queueHandle 0), by decide, rfl⟩,
    (C8_uncopyable_storage [("queue", Val.queueHandle 0)]
      { autoStart := true, daemon := true, copyStorage := true,
        ignoreTaskFailures := false } rfl
      ⟨("queue", Val.queueHandle 0), by decide, rfl⟩).1⟩

theorem runEvents_append (task : TaskFn) (l1 l2 : List Event) : ∀ r : Runner,
    runEvents task r (l1 ++ l2) = runEvents task (runEvents task r l1) l2 := by
  induction l1 with
  | nil => exact fun r => rfl
  | cons e es ih => exact fun r => ih (stepEvent task r e)

theorem stepEvent_dead (task : TaskFn) (r : Runner) (e : Event)
    (h : r.phase = .Dead) : (stepEvent task r e).phase = .Dead := by
  cases e with
  | ctrlStart => simp [stepEvent, startOp, h]
  | ctrlPause => exact h
  | ctrlUnpause => exact h
  | ctrlKill => exact h
  | loopTick =>
      show (loopStep task r).phase = .Dead
      rw [loopStep_dead task r h]
      exact h

theorem runEvents_dead (task : TaskFn) (es : List Event) : ∀ r : Runner,
    r.phase = .Dead → (runEvents task r es).phase = .Dead := by
  induction es with
  | nil => exact fun r h => h
  | cons e es ih => exact fun r h => ih _ (stepEvent_dead task r e h)

theorem runEvents_dead_mono (task : TaskFn) (r : Runner) (es : List Event)
    (i j : Nat) (hij : i ≤ j)
    (h : (runEvents task r (es.take i)).phase = .Dead) :
    (runEvents task r (es.take j)).phase = .Dead := by
  have hsplit : es.take j = es.take i ++ (es.drop i).take (j - i) := by
    rw [← List.take_add]
    congr 1
    omega
  rw [hsplit, runEvents_append]
  exact runEvents_dead task _ _ h

theorem diesAt_unique (task : TaskFn) (r : Runner) (es : List Event) (i j : Nat)
    (hi : diesAt task r es i) (hj : diesAt task r es j) : i = j := by
  rcases lt_trichotomy i j with h | h | h
  · exact absurd (runEvents_dead_mono task r es (i + 1) j h hi.2) hj.1
  · exact h
  · exact absurd (runEvents_dead_mono task r es (j + 1) i h hj.2) hi.1

/-- A concrete already-dead Runner. -/
def deadRunner : Runner :=
  { phase := .Dead
    signals := ⟨false, true, false, true⟩
    storage := []
    failures := []
    ignoreTaskFailures := false
    cycles := 3 }

/-- C6: only the Execution Loop ever performs a transition into `Dead`
(no Controller event does), `Dead` is terminal under every further event,
and along any interleaved trace of Controller requests and loop steps the
Runner transitions into `Dead` at most once; with terminality this is the
spec's "exactly once". -/
theorem C6_dead_once (task : TaskFn) (r : Runner) :
    (∀ e : Event, e ≠ .loopTick →
      ((stepEvent task r e).phase = .Dead → r.phase = .Dead))
    ∧ (r.phase = .Dead → ∀ es : List Event, (runEvents task r es).phase = .Dead)
    ∧ (∀ (es : List Event) (i j : Nat),
        diesAt task r es i → diesAt task r es j → i = j) := by
  refine ⟨?_, fun h es => runEvents_dead task es r h,
    fun es i j hi hj => diesAt_unique task r es i j hi hj⟩
  intro e he h
  cases e with
  | ctrlStart =>
      by_cases hn : r.phase = .NotStarted
      · simp [stepEvent, startOp, hn] at h
      · simp only [stepEvent, startOp, hn, if_false] at h
        exact h
  | ctrlPause => exact h
  | ctrlUnpause => exact h
  | ctrlKill => exact h
  | loopTick => exact absurd rfl he

/-- Witness for C6: an already-dead Runner stays dead along a trace. -/
theorem C6_dead_once_witness :
    deadRunner.phase = .Dead
    ∧ (runEvents defaultTask deadRunner [Event.ctrlKill, Event.loopTick]).phase
        = .Dead :=
  ⟨rfl, (C6_dead_once defaultTask deadRunner).2.1 rfl [Event.ctrlKill, Event.loopTick]⟩

theorem loopStep_requests (task : TaskFn) (r : Runner) :
    (loopStep task r).signals.killRequested = r.signals.killRequested
    ∧ (loopStep task r).signals.pauseRequested = r.signals.pauseRequested := by
  rcases r with ⟨ph, ⟨pr, kr, pa, te⟩, st, fl, ig, cy⟩
  cases ph with
  | NotStarted => exact ⟨rfl, rfl⟩
  | Dead => exact ⟨rfl, rfl⟩
  | Stopping => exact ⟨rfl, rfl⟩
  | Invoking =>
      simp only [loopStep]
      cases task st with
      | cont s => exact ⟨rfl, rfl⟩
      | stop s => exact ⟨rfl, rfl⟩
      | failed e s => cases ig <;> exact ⟨rfl, rfl⟩
  | Running => cases kr <;> cases pr <;> exact ⟨rfl, rfl⟩
  | PausedWaiting => cases kr <;> cases pr <;> exact ⟨rfl, rfl⟩

theorem loopStep_cycle_measure (task : TaskFn) (r : Runner)
    (h : r.signals.killRequested = true ∨ r.signals.pauseRequested = true) :
    (loopStep task r).cycles + (if (loopStep task r).phase = Phase.Invoking then 1 else 0)
      ≤ r.cycles + (if r.phase = Phase.Invoking then 1 else 0) := by
  rcases r with ⟨ph, ⟨pr, kr, pa, te⟩, st, fl, ig, cy⟩
  simp only [Runner.signals, Signals.killRequested, Signals.pauseRequested] at h
  cases ph with
  | NotStarted => simp [loopStep]
  | Dead => simp [loopStep]
  | Stopping => simp [loopStep]
  | Invoking =>
      simp only [loopStep]
      cases task st with
      | cont s => simp
      | stop s => simp
      | failed e s => cases ig <;> simp
  | Running =>
      cases kr with
      | true => simp [loopStep]
      | false =>
          have hpr : pr = true := by
            rcases h with h | h
            · exact absurd h (by simp)
            · exact h
          subst hpr
          simp [loopStep]
  | PausedWaiting =>
      cases kr with
      | true => simp [loopStep]
      | false =>
          have hpr : pr = true := by
            rcases h with h | h
            · exact absurd h (by simp)
            · exact h
          subst hpr
          simp [loopStep]

theorem request_cycles_bound (task : TaskFn) : ∀ (n : Nat) (r : Runner),
    (r.signals.killRequested = true ∨ r.signals.pauseRequested = true) →
    (iterSteps task n r).cycles
      ≤ r.cycles + (if r.phase = Phase.Invoking then 1 else 0) := by
  intro n
  induction n with
  | zero => exact fun r h => Nat.le_add_right _ _
  | succ n ih =>
      intro r h
      rw [iterSteps_succ]
      have h2 : (loopStep task r).signals.killRequested = true
          ∨ (loopStep task r).signals.pauseRequested = true := by
        rcases h with h | h
        · exact Or.inl ((loopStep_requests task r).1.trans h)
        · exact Or.inr ((loopStep_requests task r).2.trans h)
      exact le_trans (ih (loopStep task r) h2) (loopStep_cycle_measure task r h)

/-- C7: once a kill or pause request is set, the Loop observes it at its
very next between-invocations check — the check never starts a new
invocation — so at most one further Task invocation (the one already in
flight) ever completes after the request: over any number of further loop
steps the completed-invocation count grows by at most one. -/
theorem C7_request_latency (task : TaskFn) (r : Runner) (n : Nat)
    (h : r.signals.killRequested = true ∨ r.signals.pauseRequested = true) :
    (iterSteps task n r).cycles ≤ r.cycles + 1
    ∧ ((r.phase = .Running ∨ r.phase = .PausedWaiting) →
        (loopStep task r).phase ≠ .Invoking) := by
  constructor
  · refine le_trans (request_cycles_bound task n r h) ?_
    split <;> omega
  · intro hp
    rcases r with ⟨ph, ⟨pr, kr, pa, te⟩, st, fl, ig, cy⟩
    simp only [Runner.signals, Signals.killRequested, Signals.pauseRequested] at h
    rcases hp with hp | hp <;>
      (simp only [Runner.phase] at hp; subst hp) <;>
      cases kr <;> cases pr <;> simp [loopStep] <;> simp at h

/-- Witness for C7 at a concrete killed Runner. -/
theorem C7_request_latency_witness :
    ((kill demoRunner).signals.killRequested = true
      ∨ (kill demoRunner).signals.pauseRequested = true)
    ∧ (iterSteps defaultTask 5 (kill demoRunner)).cycles
        ≤ (kill demoRunner).cycles + 1 :=
  ⟨Or.inl rfl, (C7_request_latency defaultTask (kill demoRunner) 5 (Or.inl rfl)).1⟩

/-- C9: the concrete counter scenario: a Runner constructed over
`{"count": 0}` with `autoStart`, five completed cycles (ten loop
micro-steps), then `kill(waitUntilDead=true)`: the final `"count"` is
exactly 5, `terminated` is set, and `isAlive()` is `false`. -/
theorem C9_counter_scenario :
    (construct [("count", Val.nat 0)]
        { autoStart := true, daemon := true, copyStorage := true,
          ignoreTaskFailures := false }).map
      (fun r =>
        (storeGet (killWait countTask (iterSteps countTask 10 r)).storage "count",
         isAlive (killWait countTask (iterSteps countTask 10 r)),
         (killWait countTask (iterSteps countTask 10 r)).signals.terminated,
         (iterSteps countTask 10 r).cycles))
      = .ok (some (Val.nat 5), false, true, 5) := by
  rfl

/-- C10: constructing with no task argument is valid: the built-in default
Task and the empty default storage are supplied, so a call with only the
start option yields a running, alive Runner; the default Task always
returns `true` and leaves the storage unchanged. -/
theorem C10_default_construction :
    (∃ r : Runner,
      Threadify none none
          { autoStart := true, daemon := true, copyStorage := true,
            ignoreTaskFailures := false }
        = .ok (defaultTask, r)
      ∧ r.phase = .Running ∧ isAlive r = true ∧ r.storage = [])
    ∧ ∀ s : Store, defaultTask s = .cont s := by
  exact ⟨⟨_, rfl, rfl, rfl, rfl⟩, fun s => rfl⟩
